import Mathlib

/-!
# Verification of the photographic-report generator (`streamlit_app.py`)

Shallow embedding of the core logic of the single-file Streamlit application:
filename normalization, keyword-based slot classification, requirement
validation, and the deterministic PDF layout loop.  Pure Python functions are
translated to Lean functions; the ReportLab canvas is modelled as an ordered
instruction stream; PIL image decoding is an external collaborator and is
modelled as an explicit `decode : Bytes → Option PILImage` parameter.

Numeric values that are Python floats in the source (point coordinates) are
modelled as exact rationals; the layout arithmetic is sums, differences,
multiplications, divisions and comparisons, which the claims treat exactly.
-/

/-- Raw file content (`f.read()` / `io.BytesIO`), modelled as a byte list. -/
abbrev Bytes := List Nat

/-! ## Filename Normalizer (`normalize_filename`, lines 66-70) -/

/-- The Python `\w` character class, modelled over the ASCII range:
letters, digits or underscore.  (Python additionally treats non-ASCII word
characters as `\w`; every keyword and filename involved in the claims is
ASCII, and no keyword matching in the theorems below depends on the
non-ASCII case.) -/
def isWordChar (c : Char) : Bool := c.isAlphanum || c == '_'

/-- `re.sub(r"\s+", "_", fname)`: every maximal run of whitespace is replaced
by a single underscore.  The boolean argument records whether the previous
character belonged to a whitespace run. -/
def collapse_ws : Bool → List Char → List Char
  | _, [] => []
  | prevWS, c :: cs =>
    if c.isWhitespace then
      if prevWS then collapse_ws true cs else '_' :: collapse_ws true cs
    else c :: collapse_ws false cs

/-- `re.sub(r"[^\w_]", "_", fname)`: every character that is not a word
character is replaced by an underscore. -/
def replace_nonword (l : List Char) : List Char :=
  l.map (fun c => if isWordChar c then c else '_')

/-- `normalize_filename` (lines 66-70): lower-case, collapse whitespace runs
to `_`, replace remaining non-word characters by `_`. -/
def normalize_filename (s : String) : String :=
  String.mk (replace_nonword (collapse_ws false (s.data.map Char.toLower)))

/-! ## Keyword Registry (`SLOTS_KEYWORDS`, lines 19-34)

A Python `dict` iterated in insertion order; modelled as an association list
in the literal order of the source. -/

def SLOTS_KEYWORDS : List (String × List String) :=
  [("rack", ["rack"]),
   ("local_ap", ["local", "ap_instalado", "apficou", "onde_ap"]),
   ("panoramica", ["panoramica", "panorâmica", "panoramico", "panoram"]),
   ("area_autoatendimento", ["autoatendimento", "auto_atendimento", "autoatend"]),
   ("equipamento", ["equipamento", "device", "equip"]),
   ("mac", ["mac"]),
   ("serial", ["serial"]),
   ("mac_serial", ["mac_serial", "macserial"]),
   ("teste_velocidade", ["speedtest", "velocidade", "teste_link", "teste_velocidade"]),
   ("tela_conexao", ["tela_conexao", "tela_conexão", "telawifi", "tela_conexao_wifi"]),
   ("teste_mtu", ["mtu", "banda", "teste_mtu"]),
   ("portal_login", ["portal", "captive", "captcha", "captivo", "portal_login"]),
   ("checklist", ["checklist"]),
   ("rat", ["rat"])]

/-- The Python substring test `kw in name`, as a decidable contiguous-sublist
check on the character lists. -/
def kw_in (kw name : String) : Bool := decide (kw.data <:+: name.data)

/-- The inner double loop of `map_uploaded_files` (lines 84-92): scan the
registry in order; the first slot one of whose keywords occurs in the
(already normalized) name wins. -/
def find_slot (name : String) : List (String × List String) → Option String
  | [] => none
  | (slot, keywords) :: rest =>
    if keywords.any (fun kw => kw_in kw name) then some slot
    else find_slot name rest

/-- Dict-key membership `slot in mapped`. -/
def key_mem (slot : String) (mapped : List (String × Bytes)) : Bool :=
  mapped.any (fun p => p.1 == slot)

/-- Dict access `mapped[slot]` (first binding wins; `map_uploaded_files`
never creates a duplicate key). -/
def dict_lookup (mapped : List (String × Bytes)) (slot : String) : Option Bytes :=
  mapped.lookup slot

/-- `map_uploaded_files` (lines 72-94): classify each uploaded
`(filename, content)` pair in upload order; a file whose normalized name
matches no keyword is dropped; a slot that is already occupied keeps its
first file.  Insertion order of the Python dict is the append order. -/
def map_uploaded_files (files : List (String × Bytes)) : List (String × Bytes) :=
  files.foldl
    (fun mapped f =>
      match find_slot (normalize_filename f.1) SLOTS_KEYWORDS with
      | some slot => if key_mem slot mapped then mapped else mapped ++ [(slot, f.2)]
      | none => mapped)
    []

/-! ## Requirement Validator (`REQUIRED_BY_TYPE`, lines 55-61, and
`check_requirements`, lines 96-112) -/

/-- A Requirement Rule: a plain slot string, or a tuple of alternative
slots. -/
inductive Req where
  | single : String → Req
  | alt : List String → Req
deriving DecidableEq, Repr

/-- `REQUIRED_BY_TYPE` (lines 55-61). -/
def REQUIRED_BY_TYPE : List (String × List Req) :=
  [("produtiva",
    [Req.single "rack", Req.single "local_ap", Req.single "panoramica",
     Req.single "area_autoatendimento", Req.single "equipamento",
     Req.alt ["mac_serial", "mac"], Req.single "teste_velocidade",
     Req.single "tela_conexao", Req.single "teste_mtu",
     Req.single "portal_login", Req.single "checklist", Req.single "rat"]),
   ("improdutiva",
    [Req.single "rack", Req.single "local_ap",
     Req.single "area_autoatendimento", Req.single "equipamento",
     Req.alt ["mac_serial", "mac", "serial"], Req.single "teste_velocidade",
     Req.single "checklist", Req.single "rat"])]

/-- The loop body of `check_requirements` (lines 104-111): walk the rules in
table order, appending the description of each unsatisfied rule. -/
def missing_list (mapped : List (String × Bytes)) : List Req → List String
  | [] => []
  | Req.alt rs :: rest =>
    if rs.any (fun r => key_mem r mapped) then missing_list mapped rest
    else String.intercalate " ou " rs :: missing_list mapped rest
  | Req.single r :: rest =>
    if key_mem r mapped then missing_list mapped rest
    else r :: missing_list mapped rest

/-- `check_requirements` (lines 96-112).  `REQUIRED_BY_TYPE[tipo]` raises
`KeyError` for an unknown type; modelled as `none`. -/
def check_requirements (mapped : List (String × Bytes)) (tipo : String) :
    Option (Bool × List String) :=
  (REQUIRED_BY_TYPE.lookup tipo).map
    (fun required =>
      let missing := missing_list mapped required
      (missing.isEmpty, missing))

/-! ## Report Layout Engine (lines 210-312)

The ReportLab canvas calls made by the generation branch are modelled as an
ordered instruction stream.  Coordinates are exact rationals; the ReportLab A4
is 210mm x 297mm at 72 points per 25.4mm. -/

/-- One canvas call. -/
inductive Instr where
  | setFont : String → ℚ → Instr
  | drawString : ℚ → ℚ → String → Instr
  | drawTextLines : ℚ → ℚ → String → Instr
  | rect : ℚ → ℚ → ℚ → ℚ → Instr
  | drawImage : ℚ → ℚ → ℚ → ℚ → Instr
  | showPage : Instr
deriving DecidableEq, Repr

/-- A decoded PIL image: pixel size and mode, as consumed by the layout
code (`pil_img.size`, `pil_img.mode`). -/
structure PILImage where
  width : Nat
  height : Nat
  mode : String
deriving DecidableEq, Repr

/-- `pil_img.convert("RGB")`: same pixel size, RGB mode. -/
def convert_rgb (img : PILImage) : PILImage :=
  { img with mode := "RGB" }

def A4_width : ℚ := 75600 / 127

def A4_height : ℚ := 106920 / 127

def page_margin : ℚ := 40

/-- `max_w = width - 2 * margin` (line 250). -/
def content_width : ℚ := A4_width - 2 * page_margin

/-- `image_section_height = 220` (line 251). -/
def image_section_height : ℚ := 220

/-- The scale computed in `add_image_to_canvas` (line 127):
`ratio = min(max_w / img_w, max_h / img_h, 1.0)`.  (In Lean, division of a
rational by `0` yields `0`; a decoded PIL image always has positive pixel
dimensions, which the scale theorem assumes explicitly.) -/
def image_scale (img_w img_h : Nat) (max_w max_h : ℚ) : ℚ :=
  min (min (max_w / img_w) (max_h / img_h)) 1

/-- `add_image_to_canvas` (lines 118-134): draw the image scaled by
`image_scale`, at `x`, raised by the unused vertical space `max_h - draw_h`. -/
def add_image_to_canvas (img : PILImage) (x y max_w max_h : ℚ) : List Instr :=
  let scale := image_scale img.width img.height max_w max_h
  let draw_w := (img.width : ℚ) * scale
  let draw_h := (img.height : ℚ) * scale
  [Instr.drawImage x (y + (max_h - draw_h)) draw_w draw_h]

/-- One iteration of the `for label, slot in PDF_IMAGE_ORDER` loop
(lines 252-288): optional page break, section title, then either a scaled
image (when the slot is mapped and its bytes decode) or the placeholder
rectangle with its caption.  `pil_image_from_bytes` may raise; the
`try/except` at lines 266-269 turns a failed decode into `None`, which the
`Option.bind` models. -/
def render_section (decode : Bytes → Option PILImage)
    (mapped : List (String × Bytes)) (y : ℚ) (label slot : String) :
    ℚ × List Instr :=
  let pageBrk : List Instr :=
    if y - image_section_height < page_margin then [Instr.showPage] else []
  let y0 : ℚ :=
    if y - image_section_height < page_margin then A4_height - page_margin else y
  let titleInstrs := [Instr.setFont "Helvetica-Bold" 11, Instr.drawString page_margin y0 label]
  let y1 := y0 - 16
  let body : List Instr :=
    match (dict_lookup mapped slot).bind decode with
    | some img =>
      let img := if img.mode = "RGB" ∨ img.mode = "RGBA" then img else convert_rgb img
      add_image_to_canvas img page_margin (y1 - image_section_height + 8)
        content_width (image_section_height - 24)
    | none =>
      [Instr.setFont "Helvetica-Oblique" 9,
       Instr.rect page_margin (y1 - image_section_height + 8) content_width
         (image_section_height - 24),
       Instr.drawString (page_margin + 8) (y1 - image_section_height + 18)
         "Imagem não fornecida para este campo."]
  (y1 - image_section_height - 6, pageBrk ++ titleInstrs ++ body)

/-- The full section loop over a list of `(label, slot)` entries. -/
def render_sections (decode : Bytes → Option PILImage)
    (mapped : List (String × Bytes)) (y : ℚ) :
    List (String × String) → ℚ × List Instr
  | [] => (y, [])
  | (label, slot) :: rest =>
    let s1 := render_section decode mapped y label slot
    let s2 := render_sections decode mapped s1.1 rest
    (s2.1, s1.2 ++ s2.2)

/-- `PDF_IMAGE_ORDER` (lines 37-52).  Each entry of the Python list is a
pair of one display label and one slot; the loop at line 252 destructures
exactly this pair and renders exactly that one slot. -/
def PDF_IMAGE_ORDER : List (String × String) :=
  [("RACK", "rack"),
   ("LOCAL ONDE O AP FICOU INSTALADO", "local_ap"),
   ("FOTO PANORÂMICA DA SALA", "panoramica"),
   ("ÁREA DE AUTOATENDIMENTO", "area_autoatendimento"),
   ("EQUIPAMENTO", "equipamento"),
   ("MAC / SERIAL DO EQUIPAMENTO", "mac_serial"),
   ("MAC (separado)", "mac"),
   ("SERIAL (separado)", "serial"),
   ("PRINT TESTE DO LINK (SpeedTest)", "teste_velocidade"),
   ("PRINT DA TELA DE CONEXÃO WIFI (CLIENTES_CAIXA)", "tela_conexao"),
   ("PRINT DO TESTE WI-FI BANDA E MTU 1500 BYTES", "teste_mtu"),
   ("PRINTS TELA LOGIN CAPTIVE PORTAL (ANTES/APÓS)", "portal_login"),
   ("CHECKLIST PREENCHIDO ASSINADO", "checklist"),
   ("RAT PREENCHIDA ASSINADA", "rat")]

/-- The slots one entry of `PDF_IMAGE_ORDER` renders: the loop body handles
exactly the single slot of the pair. -/
def entry_slots (entry : String × String) : List String := [entry.2]

/-- The fixed header block (lines 223-247).  The `beginText` paragraph uses
the ReportLab default leading of `1.2 * 10 = 12` points per line over its two
lines, so `text.getY()` returns the start y minus 24. -/
def header_instrs (chamado data_inst : String) : List Instr :=
  [Instr.setFont "Helvetica-Bold" 14,
   Instr.drawString page_margin (A4_height - 40) "CHECKLIST – Implantação CEF Wi-Fi",
   Instr.setFont "Helvetica" 10,
   Instr.drawString page_margin (A4_height - 64) ("Nº Chamado: " ++ chamado),
   Instr.drawString (page_margin + 250) (A4_height - 64) "Versão: 01",
   Instr.drawString (page_margin + 390) (A4_height - 64) ("Data instalação: " ++ data_inst),
   Instr.drawString page_margin (A4_height - 82) "Integradora: TELEFONICA DATA S.A. / BRASIL S/A",
   Instr.drawString page_margin (A4_height - 96) "Contrato: TELEFONICA DATA - IOT BIG DATA MANUTENÇÃO",
   Instr.drawTextLines page_margin (A4_height - 118) "Objetivo\nEste documento detalha a instalação do produto de prateleira Wi-Fi nas dependências do cliente descrito e atesta a funcionalidade dos equipamentos."]

/-- `y_pos` after the header block: `height - 40 - 24 - 18 - 14 - 22`
down to the paragraph, minus its two lines of leading (24), minus 12,
minus the 6-point gap before the photos (lines 221-247). -/
def header_end_y : ℚ := A4_height - 160

/-- Closing block (lines 290-305): optional page break, the conclusion
title and paragraph, and the final `showPage` before `save`. -/
def render_conclusion (y : ℚ) : List Instr :=
  let brk : List Instr := if y - 80 < page_margin then [Instr.showPage] else []
  let y0 : ℚ := if y - 80 < page_margin then A4_height - page_margin else y
  brk ++
  [Instr.setFont "Helvetica-Bold" 11,
   Instr.drawString page_margin y0 "Conclusão",
   Instr.setFont "Helvetica" 10,
   Instr.drawTextLines page_margin (y0 - 16)
     "Atividade conforme demonstrado anteriormente.\nRealizado o teste de velocidade do link (conforme prints anexados).\nObs.: Os equipamentos descritos abaixo ficaram instalados na agência.",
   Instr.showPage]

/-- The complete instruction stream of the generation branch
(lines 216-305). -/
def generate_pdf (chamado data_inst : String) (decode : Bytes → Option PILImage)
    (mapped : List (String × Bytes)) : List Instr :=
  let sections := render_sections decode mapped header_end_y PDF_IMAGE_ORDER
  header_instrs chamado data_inst ++ sections.2 ++ render_conclusion sections.1

/-! ## Ticket-number extraction and the generation gate (lines 145-312) -/

/-- `re.search(r"\d+", raw)`: the first maximal run of digits, or the empty
string when there is none (`match.group(0) if match else ""`, lines 147-148). -/
def extract_chamado (raw : String) : String :=
  String.mk ((raw.data.dropWhile (fun c => !c.isDigit)).takeWhile (fun c => c.isDigit))

/-- The `Gerar PDF` button handler (lines 210-312): block with an error when
no digits were extracted; block when validation failed and force is off;
otherwise produce the PDF instruction stream.  `ok` is the first component
of `check_requirements(mapped, tipo)` computed at line 200; an unknown
`tipo` would raise `KeyError` before the button is reached. -/
def gerar_pdf_action (raw_chamado tipo data_inst : String) (force : Bool)
    (decode : Bytes → Option PILImage) (files : List (String × Bytes)) :
    Except String (List Instr) :=
  let mapped := map_uploaded_files files
  let chamado := extract_chamado raw_chamado
  match check_requirements mapped tipo with
  | none => Except.error "KeyError: tipo"
  | some okMissing =>
    if chamado = "" then
      Except.error "Por favor, digite o número do chamado (pelo menos um dígito) para nomear o arquivo."
    else if !okMissing.1 && !force then
      Except.error "Relatório não gerado: faltam imagens obrigatórias. Se quiser prosseguir mesmo assim, marque Forçar geração."
    else
      Except.ok (generate_pdf chamado data_inst decode mapped)

/-! ## Instruction classifiers used by the theorems -/

/-- Is the instruction a placed image? -/
def isPlacedImage : Instr → Bool
  | Instr.drawImage _ _ _ _ => true
  | _ => false

/-- Is the instruction a placeholder box (`c.rect`)? -/
def isPlaceholderBox : Instr → Bool
  | Instr.rect _ _ _ _ => true
  | _ => false

/-- Is the instruction one image-or-placeholder placement? -/
def isPlacement (i : Instr) : Bool := isPlacedImage i || isPlaceholderBox i

/-- Is the instruction the conclusion title? -/
def isConclusionTitle : Instr → Bool
  | Instr.drawString _ _ s => s == "Conclusão"
  | _ => false

/-- The slots a Requirement Rule mentions. -/
def req_slots : Req → List String
  | Req.single s => [s]
  | Req.alt ss => ss

/-- Spec-side reading of one Requirement Rule (§4.3 of the spec): the rule
is satisfied iff at least one of its slots is present in the mapping.
Stated from the words of the spec, to be compared with `missing_list`. -/
def req_has_present_slot (mapped : List (String × Bytes)) (req : Req) : Prop :=
  ∃ r ∈ req_slots req, key_mem r mapped = true

/-! ## Character-level facts used for normalizer idempotence -/

/-- A character outside the ASCII upper-case range is fixed by
`Char.toLower`. -/
theorem char_toLower_eq_self {c : Char} (h : ¬(65 ≤ c.toNat ∧ c.toNat ≤ 90)) :
    c.toLower = c := by
  simp only [Char.toLower]
  rw [if_neg h]

/-- `Char.toLower` never produces an ASCII upper-case letter. -/
theorem char_toLower_not_upper (c : Char) :
    ¬(65 ≤ c.toLower.toNat ∧ c.toLower.toNat ≤ 90) := by
  by_cases h : 65 ≤ c.toNat ∧ c.toNat ≤ 90
  · simp only [Char.toLower]
    rw [if_pos h]
    have hv : (Char.ofNat (c.toNat + 32)).toNat = c.toNat + 32 := by
      rw [Char.ofNat, dif_pos (Or.inl (by omega : c.toNat + 32 < 55296))]
      rfl
    rw [hv]
    omega
  · simp only [Char.toLower]
    rw [if_neg h]
    exact h

/-- `Char.toLower` is idempotent. -/
theorem char_toLower_toLower (c : Char) : c.toLower.toLower = c.toLower :=
  char_toLower_eq_self (char_toLower_not_upper c)

/-- A word character is not whitespace. -/
theorem isWordChar_not_ws {c : Char} (h : isWordChar c = true) :
    c.isWhitespace = false := by
  cases hw : c.isWhitespace with
  | false => rfl
  | true =>
    exfalso
    have : ((c = ' ' ∨ c = '\t') ∨ c = '\r') ∨ c = '\n' := by
      simpa [Char.isWhitespace] using hw
    rcases this with ((rfl | rfl) | rfl) | rfl <;> simp [isWordChar, Char.isAlphanum, Char.isAlpha, Char.isUpper, Char.isLower, Char.isDigit] at h

/-- `collapse_ws` is the identity on whitespace-free character lists. -/
theorem collapse_ws_of_no_ws :
    ∀ (l : List Char) (b : Bool), (∀ c ∈ l, c.isWhitespace = false) →
      collapse_ws b l = l := by
  intro l
  induction l with
  | nil => intro b _; rfl
  | cons c cs ih =>
    intro b h
    have hc : c.isWhitespace = false := h c (List.mem_cons_self c cs)
    simp only [collapse_ws, hc, Bool.false_eq_true, if_false]
    rw [ih false (fun x hx => h x (List.mem_cons_of_mem c hx))]

/-- `replace_nonword` is the identity on lists of word characters. -/
theorem replace_nonword_of_word :
    ∀ (l : List Char), (∀ c ∈ l, isWordChar c = true) → replace_nonword l = l := by
  intro l
  induction l with
  | nil => intro _; rfl
  | cons c cs ih =>
    intro h
    have hc := h c (List.mem_cons_self c cs)
    simp only [replace_nonword, List.map_cons, hc, if_true]
    have := ih (fun x hx => h x (List.mem_cons_of_mem c hx))
    simp only [replace_nonword] at this
    rw [this]

/-- Mapping `Char.toLower` over a list of `toLower`-fixed characters is the
identity. -/
theorem map_toLower_of_fixed :
    ∀ (l : List Char), (∀ c ∈ l, c.toLower = c) → l.map Char.toLower = l := by
  intro l
  induction l with
  | nil => intro _; rfl
  | cons c cs ih =>
    intro h
    simp only [List.map_cons, h c (List.mem_cons_self c cs)]
    rw [ih (fun x hx => h x (List.mem_cons_of_mem c hx))]

/-- Every character of a `collapse_ws` output is an underscore or a
character of the input. -/
theorem mem_collapse_ws :
    ∀ (l : List Char) (b : Bool) (c : Char), c ∈ collapse_ws b l →
      c = '_' ∨ c ∈ l := by
  intro l
  induction l with
  | nil => intro b c h; exact absurd h (List.not_mem_nil c)
  | cons a cs ih =>
    intro b c h
    by_cases ha : a.isWhitespace = true
    · simp only [collapse_ws, ha, if_true] at h
      cases b with
      | true =>
        rcases ih true c h with h' | h'
        · exact Or.inl h'
        · exact Or.inr (List.mem_cons_of_mem a h')
      | false =>
        rcases List.mem_cons.1 h with rfl | h'
        · exact Or.inl rfl
        · rcases ih true c h' with h'' | h''
          · exact Or.inl h''
          · exact Or.inr (List.mem_cons_of_mem a h'')
    · simp only [collapse_ws, ha, if_false] at h
      rcases List.mem_cons.1 h with rfl | h'
      · exact Or.inr (List.mem_cons_self c cs)
      · rcases ih false c h' with h'' | h''
        · exact Or.inl h''
        · exact Or.inr (List.mem_cons_of_mem a h'')

/-- Every character of a normalized filename is `toLower`-fixed, not
whitespace, and a word character. -/
theorem normalize_filename_chars (s : String) :
    ∀ c ∈ (normalize_filename s).data,
      c.toLower = c ∧ c.isWhitespace = false ∧ isWordChar c = true := by
  intro c hc
  have hund : ('_').toLower = '_' ∧ ('_').isWhitespace = false ∧ isWordChar '_' = true := by
    refine ⟨char_toLower_eq_self (by decide), by decide, by decide⟩
  simp only [normalize_filename, replace_nonword, List.mem_map] at hc
  obtain ⟨a, ha, rfl⟩ := hc
  by_cases hw : isWordChar a = true
  · rw [if_pos hw]
    rcases mem_collapse_ws _ _ _ ha with rfl | ha'
    · exact hund
    · rcases List.mem_map.1 ha' with ⟨d, _, rfl⟩
      exact ⟨char_toLower_toLower d, isWordChar_not_ws hw, hw⟩
  · rw [if_neg hw]
    exact hund

/-- C8: `normalize_filename` is idempotent: normalizing an already
normalized filename changes nothing, for every input string. -/
theorem C8_normalize_filename_idempotent (s : String) :
    normalize_filename (normalize_filename s) = normalize_filename s := by
  have hchars := normalize_filename_chars s
  conv_lhs => rw [normalize_filename]
  rw [map_toLower_of_fixed _ (fun c hc => (hchars c hc).1)]
  rw [collapse_ws_of_no_ws _ _ (fun c hc => (hchars c hc).2.1)]
  rw [replace_nonword_of_word _ (fun c hc => (hchars c hc).2.2)]

/-! ## Classification: the `mac_serial` slot is unreachable -/

/-- Substring matching is monotone: if `k1` occurs in `k2` and `k2` occurs
in the name, then `k1` occurs in the name. -/
theorem kw_in_trans {k1 k2 name : String} (h12 : k1.data <:+: k2.data)
    (h : kw_in k2 name = true) : kw_in k1 name = true := by
  simp only [kw_in, decide_eq_true_eq] at h ⊢
  exact h12.trans h

/-- Stepping lemma for the registry scan: when the scan returns a slot
other than that of the head entry, the head entry did not match and the scan of
the tail returns the same slot. -/
theorem find_slot_cons_ne {name slot s : String} {kws : List String}
    {rest : List (String × List String)} (hne : s ≠ slot)
    (h : find_slot name ((slot, kws) :: rest) = some s) :
    kws.any (fun kw => kw_in kw name) = false ∧ find_slot name rest = some s := by
  by_cases hc : kws.any (fun kw => kw_in kw name) = true
  · rw [find_slot, if_pos hc] at h
    exact absurd (Option.some.inj h).symm hne
  · rw [find_slot, if_neg hc] at h
    exact ⟨Bool.not_eq_true _ ▸ Bool.of_not_eq_true hc, h⟩

/-- No name is classified to `mac_serial`: both of its keywords contain the
fragment `mac`, and the registry lists the `mac` slot first, so the scan
never reaches the `mac_serial` entry with a matching name. -/
theorem find_slot_ne_mac_serial (name : String) :
    find_slot name SLOTS_KEYWORDS ≠ some "mac_serial" := by
  intro h
  rw [SLOTS_KEYWORDS] at h
  obtain ⟨-, h⟩ := find_slot_cons_ne (by decide) h
  obtain ⟨-, h⟩ := find_slot_cons_ne (by decide) h
  obtain ⟨-, h⟩ := find_slot_cons_ne (by decide) h
  obtain ⟨-, h⟩ := find_slot_cons_ne (by decide) h
  obtain ⟨-, h⟩ := find_slot_cons_ne (by decide) h
  obtain ⟨hmac, h⟩ := find_slot_cons_ne (by decide) h
  obtain ⟨-, h⟩ := find_slot_cons_ne (by decide) h
  by_cases hms : (["mac_serial", "macserial"].any (fun kw => kw_in kw name)) = true
  · have hmac' : kw_in "mac" name = true := by
      have hms' : kw_in "mac_serial" name = true ∨ kw_in "macserial" name = true := by
        simpa using hms
      rcases hms' with hk | hk
      · exact kw_in_trans (by decide) hk
      · exact kw_in_trans (by decide) hk
    have : (["mac"].any (fun kw => kw_in kw name)) = true := by simpa using hmac'
    rw [this] at hmac
    exact Bool.true_eq_false ▸ hmac
  · rw [find_slot, if_neg hms] at h
    obtain ⟨-, h⟩ := find_slot_cons_ne (by decide) h
    obtain ⟨-, h⟩ := find_slot_cons_ne (by decide) h
    obtain ⟨-, h⟩ := find_slot_cons_ne (by decide) h
    obtain ⟨-, h⟩ := find_slot_cons_ne (by decide) h
    obtain ⟨-, h⟩ := find_slot_cons_ne (by decide) h
    obtain ⟨-, h⟩ := find_slot_cons_ne (by decide) h
    exact Option.noConfusion h

/-- Key membership across an appended singleton binding. -/
theorem key_mem_append (s : String) (m : List (String × Bytes)) (p : String × Bytes) :
    key_mem s (m ++ [p]) = (key_mem s m || p.1 == s) := by
  simp [key_mem, List.any_append]

/-- Folding the upload loop never inserts the key `mac_serial`. -/
theorem map_fold_no_mac_serial :
    ∀ (files acc : List (String × Bytes)),
      key_mem "mac_serial" acc = false →
      key_mem "mac_serial"
        (files.foldl
          (fun mapped f =>
            match find_slot (normalize_filename f.1) SLOTS_KEYWORDS with
            | some slot => if key_mem slot mapped then mapped else mapped ++ [(slot, f.2)]
            | none => mapped)
          acc) = false := by
  intro files
  induction files with
  | nil => intro acc h; simpa using h
  | cons f fs ih =>
    intro acc h
    rw [List.foldl_cons]
    apply ih
    cases hfind : find_slot (normalize_filename f.1) SLOTS_KEYWORDS with
    | none => simpa [hfind] using h
    | some slot =>
      simp only [hfind]
      by_cases hk : key_mem slot acc = true
      · simpa [hk] using h
      · have hslot : slot ≠ "mac_serial" := by
          intro heq
          exact find_slot_ne_mac_serial (normalize_filename f.1) (heq ▸ hfind)
        simp [hk, key_mem_append, h, beq_eq_false_iff_ne.mpr hslot]

/-- C9: for every ordered list of uploaded files, the produced mapping never
contains the key `mac_serial`: both `mac_serial` keywords contain the
fragment `mac`, and the registry iterates `mac` before `mac_serial`, so the
`mac_serial` slot is unreachable. -/
theorem C9_mac_serial_slot_unreachable (files : List (String × Bytes)) :
    key_mem "mac_serial" (map_uploaded_files files) = false :=
  map_fold_no_mac_serial files [] rfl

/-- C1 counterexample: the file `mac_serial_foto.jpg` is classified to the
slot `mac`, not `mac_serial`. -/
theorem C1_counterexample :
    map_uploaded_files [("mac_serial_foto.jpg", [0])] = [("mac", [0])] ∧
    key_mem "mac_serial" (map_uploaded_files [("mac_serial_foto.jpg", [0])]) = false :=
  ⟨rfl, rfl⟩

/-- C1 (amended): a file whose normalized filename contains the fragment
`mac_serial` is assigned to the looser `mac` slot, never to `mac_serial`,
because the registry iterates the generic `mac` slot before the composite
`mac_serial` slot; in particular `mac_serial_foto.jpg` lands in `mac`. -/
theorem C1_amended_mac_slot_wins (b : Bytes) (name : String) :
    map_uploaded_files [("mac_serial_foto.jpg", b)] = [("mac", b)] ∧
    find_slot (normalize_filename name) SLOTS_KEYWORDS ≠ some "mac_serial" :=
  ⟨rfl, find_slot_ne_mac_serial (normalize_filename name)⟩

/-! ## Requirement Validator: theorems -/

/-- Pointwise-equal predicates give equal `List.any`. -/
theorem any_congr {α : Type} {p q : α → Bool} :
    ∀ l : List α, (∀ a ∈ l, p a = q a) → l.any p = l.any q := by
  intro l
  induction l with
  | nil => intro _; rfl
  | cons a t ih =>
    intro h
    simp only [List.any_cons, h a (List.mem_cons_self a t),
      ih (fun x hx => h x (List.mem_cons_of_mem a hx))]

/-- A rule is left out of `missing` exactly when one of its slots is
present. -/
theorem req_has_present_slot_iff_any (m : List (String × Bytes)) (req : Req) :
    req_has_present_slot m req ↔ (req_slots req).any (fun r => key_mem r m) = true := by
  simp [req_has_present_slot, List.any_eq_true]

/-- `missing_list` is empty iff every rule of the table has a present
slot. -/
theorem missing_list_eq_nil_iff (m : List (String × Bytes)) :
    ∀ reqs : List Req,
      (missing_list m reqs = [] ↔ ∀ req ∈ reqs, req_has_present_slot m req) := by
  intro reqs
  induction reqs with
  | nil => simp [missing_list]
  | cons req rest ih =>
    have hstep : ∀ (cond : Bool) (entry : String),
        (cond = true → req_has_present_slot m req) →
        (req_has_present_slot m req → cond = true) →
        ((if cond then missing_list m rest else entry :: missing_list m rest) = []
          ↔ ∀ r ∈ req :: rest, req_has_present_slot m r) := by
      intro cond entry h1 h2
      by_cases hcond : cond = true
      · rw [if_pos hcond]
        constructor
        · intro hr r hr'
          rcases List.mem_cons.1 hr' with rfl | hr''
          · exact h1 hcond
          · exact (ih.1 hr) r hr''
        · intro hall
          exact ih.2 (fun r hr => hall r (List.mem_cons_of_mem _ hr))
      · rw [if_neg hcond]
        apply iff_of_false
        · simp
        · intro hall
          exact hcond (h2 (hall req (List.mem_cons_self _ _)))
    cases req with
    | single r =>
      refine Iff.trans ?_ (hstep (key_mem r m) r ?_ ?_)
      · simp only [missing_list]
      · intro hc
        exact ⟨r, by simp [req_slots], hc⟩
      · intro hp
        rcases hp with ⟨x, hx, hkx⟩
        simp only [req_slots, List.mem_singleton] at hx
        exact hx ▸ hkx
    | alt rs =>
      refine Iff.trans ?_ (hstep (rs.any fun r => key_mem r m) (String.intercalate " ou " rs) ?_ ?_)
      · simp only [missing_list]
      · intro hc
        exact (req_has_present_slot_iff_any m (Req.alt rs)).2 (by simpa [req_slots] using hc)
      · intro hp
        simpa [req_slots] using (req_has_present_slot_iff_any m (Req.alt rs)).1 hp

/-- `missing_list` only looks at the membership of the slots mentioned by
the table. -/
theorem missing_list_congr (m m' : List (String × Bytes)) :
    ∀ reqs : List Req,
      (∀ req ∈ reqs, ∀ s ∈ req_slots req, key_mem s m = key_mem s m') →
      missing_list m reqs = missing_list m' reqs := by
  intro reqs
  induction reqs with
  | nil => intro _; rfl
  | cons req rest ih =>
    intro h
    have hrest := ih (fun r hr => h r (List.mem_cons_of_mem _ hr))
    cases req with
    | single r =>
      have hr : key_mem r m = key_mem r m' :=
        h _ (List.mem_cons_self _ _) r (by simp [req_slots])
      simp only [missing_list, hr, hrest]
    | alt rs =>
      have hany : (rs.any fun r => key_mem r m) = (rs.any fun r => key_mem r m') :=
        any_congr rs (fun r hr => h _ (List.mem_cons_self _ _) r (by simpa [req_slots] using hr))
      simp only [missing_list, hany, hrest]

/-- C5: `check_requirements` reports satisfied exactly when every
Requirement Rule in the table of the selected type has at least one of its slots
present in the mapping, and any second mapping agreeing on the membership
of every slot mentioned in the table (in particular, the same mapping with
extra unrelated slots added) receives the identical result. -/
theorem C5_check_requirements_characterization
    (m m' : List (String × Bytes)) (tipo : String) (reqs : List Req)
    (hreqs : REQUIRED_BY_TYPE.lookup tipo = some reqs)
    (hagree : ∀ req ∈ reqs, ∀ s ∈ req_slots req, key_mem s m = key_mem s m') :
    (∃ ok missing, check_requirements m tipo = some (ok, missing) ∧
      (ok = true ↔ ∀ req ∈ reqs, req_has_present_slot m req)) ∧
    check_requirements m tipo = check_requirements m' tipo := by
  constructor
  · refine ⟨(missing_list m reqs).isEmpty, missing_list m reqs, ?_, ?_⟩
    · simp [check_requirements, hreqs]
    · rw [List.isEmpty_iff]
      exact missing_list_eq_nil_iff m reqs
  · simp [check_requirements, hreqs, missing_list_congr m m' reqs hagree]

/-- Witness for C5 at a concrete mapping, type `produtiva`, and an added
slot `foto_extra` that no rule mentions. -/
theorem C5_witness :
    (∃ ok missing, check_requirements [("rack", [1])] "produtiva" = some (ok, missing) ∧
      (ok = true ↔ ∀ req ∈
        [Req.single "rack", Req.single "local_ap", Req.single "panoramica",
         Req.single "area_autoatendimento", Req.single "equipamento",
         Req.alt ["mac_serial", "mac"], Req.single "teste_velocidade",
         Req.single "tela_conexao", Req.single "teste_mtu",
         Req.single "portal_login", Req.single "checklist", Req.single "rat"],
        req_has_present_slot [("rack", [1])] req)) ∧
    check_requirements [("rack", [1])] "produtiva" =
      check_requirements [("rack", [1]), ("foto_extra", [2])] "produtiva" :=
  C5_check_requirements_characterization [("rack", [1])]
    [("rack", [1]), ("foto_extra", [2])] "produtiva" _ rfl (by decide)

/-- Membership in `missing_list`: exactly the descriptions of the rules
none of whose slots is present. -/
theorem mem_missing_list (m : List (String × Bytes)) (x : String) :
    ∀ reqs : List Req,
      (x ∈ missing_list m reqs ↔
        ∃ req ∈ reqs, (req_slots req).any (fun r => key_mem r m) = false ∧
          x = (match req with
               | Req.single r => r
               | Req.alt rs => String.intercalate " ou " rs)) := by
  intro reqs
  induction reqs with
  | nil => simp [missing_list]
  | cons req rest ih =>
    have hstep : ∀ (cond : Bool) (entry : String),
        (cond = (req_slots req).any (fun r => key_mem r m)) →
        (entry = (match req with
                  | Req.single r => r
                  | Req.alt rs => String.intercalate " ou " rs)) →
        ((x ∈ if cond then missing_list m rest else entry :: missing_list m rest) ↔
          ∃ r ∈ req :: rest, (req_slots r).any (fun s => key_mem s m) = false ∧
            x = (match r with
                 | Req.single s => s
                 | Req.alt ss => String.intercalate " ou " ss)) := by
      intro cond entry hcond hentry
      by_cases hc : cond = true
      · rw [if_pos hc, ih]
        constructor
        · rintro ⟨r, hr, hf, hx⟩
          exact ⟨r, List.mem_cons_of_mem _ hr, hf, hx⟩
        · rintro ⟨r, hr, hf, hx⟩
          rcases List.mem_cons.1 hr with rfl | hr'
          · rw [← hcond, hc] at hf
            exact absurd hf (by simp)
          · exact ⟨r, hr', hf, hx⟩
      · rw [if_neg hc, List.mem_cons, ih]
        constructor
        · rintro (rfl | ⟨r, hr, hf, hx⟩)
          · exact ⟨req, List.mem_cons_self _ _, hcond ▸ Bool.of_not_eq_true hc, hentry⟩
          · exact ⟨r, List.mem_cons_of_mem _ hr, hf, hx⟩
        · rintro ⟨r, hr, hf, hx⟩
          rcases List.mem_cons.1 hr with rfl | hr'
          · exact Or.inl (hentry ▸ hx)
          · exact Or.inr ⟨r, hr', hf, hx⟩
    cases req with
    | single r =>
      refine Iff.trans ?_ (hstep (key_mem r m) r (by simp [req_slots]) rfl)
      simp only [missing_list]
    | alt rs =>
      refine Iff.trans ?_
        (hstep (rs.any fun s => key_mem s m) (String.intercalate " ou " rs)
          (by simp [req_slots]) rfl)
      simp only [missing_list]

/-- C10: a mapping whose only MAC-related slot is `serial` satisfies the
MAC/serial alternative rule of type `improdutiva` (alternatives
`mac_serial`, `mac`, `serial`) but not that of type `produtiva`
(alternatives `mac_serial`, `mac` only): the rule shows up in `produtiva`'s
missing list and not in `improdutiva`'s. -/
theorem C10_serial_only_mapping_split
    (m : List (String × Bytes))
    (hser : key_mem "serial" m = true)
    (hmac : key_mem "mac" m = false)
    (hms : key_mem "mac_serial" m = false) :
    (∃ ok missing, check_requirements m "produtiva" = some (ok, missing) ∧
        "mac_serial ou mac" ∈ missing) ∧
    (∃ ok missing, check_requirements m "improdutiva" = some (ok, missing) ∧
        "mac_serial ou mac ou serial" ∉ missing) := by
  constructor
  · refine ⟨_, _, rfl, ?_⟩
    refine (mem_missing_list m _ _).2
      ⟨Req.alt ["mac_serial", "mac"], by decide, ?_, rfl⟩
    simp [req_slots, hms, hmac]
  · refine ⟨_, _, rfl, ?_⟩
    intro hmem
    obtain ⟨req, hreq, hcond, hx⟩ := (mem_missing_list m _ _).1 hmem
    fin_cases hreq <;> simp [req_slots, hser] at hcond hx

/-- Witness for C10 at the mapping holding only the `serial` slot. -/
theorem C10_witness :
    (∃ ok missing, check_requirements [("serial", [1])] "produtiva" = some (ok, missing) ∧
        "mac_serial ou mac" ∈ missing) ∧
    (∃ ok missing, check_requirements [("serial", [1])] "improdutiva" = some (ok, missing) ∧
        "mac_serial ou mac ou serial" ∉ missing) :=
  C10_serial_only_mapping_split [("serial", [1])] rfl rfl rfl

/-! ## Layout Engine: counting placements -/

/-- Each section of the PDF loop emits exactly one placement: one scaled
image or one placeholder box. -/
theorem render_section_one_placement (decode : Bytes → Option PILImage)
    (mapped : List (String × Bytes)) (y : ℚ) (label slot : String) :
    ((render_section decode mapped y label slot).2.countP isPlacement) = 1 := by
  simp only [render_section]
  cases hlk : (dict_lookup mapped slot).bind decode with
  | some img =>
    simp only [hlk, add_image_to_canvas, List.countP_append]
    split <;> rfl
  | none =>
    simp only [hlk, List.countP_append]
    split <;> rfl

/-- Each section of the PDF loop with an empty mapping emits exactly one
placeholder box and no image. -/
theorem render_section_empty_counts (decode : Bytes → Option PILImage)
    (y : ℚ) (label slot : String) :
    ((render_section decode [] y label slot).2.countP isPlaceholderBox) = 1 ∧
    ((render_section decode [] y label slot).2.countP isPlacedImage) = 0 := by
  simp only [render_section]
  constructor <;> · simp only [List.countP_append]; split <;> rfl

/-- The section loop emits exactly one placement per entry. -/
theorem render_sections_placements (decode : Bytes → Option PILImage)
    (mapped : List (String × Bytes)) :
    ∀ (entries : List (String × String)) (y : ℚ),
      ((render_sections decode mapped y entries).2.countP isPlacement) =
        entries.length := by
  intro entries
  induction entries with
  | nil => intro y; rfl
  | cons e rest ih =>
    intro y
    cases e with
    | mk label slot =>
      simp only [render_sections, List.countP_append,
        render_section_one_placement, ih, List.length_cons]
      omega

/-- With an empty mapping, the section loop emits exactly one placeholder
box per entry and no image. -/
theorem render_sections_empty_counts (decode : Bytes → Option PILImage) :
    ∀ (entries : List (String × String)) (y : ℚ),
      ((render_sections decode [] y entries).2.countP isPlaceholderBox) =
        entries.length ∧
      ((render_sections decode [] y entries).2.countP isPlacedImage) = 0 := by
  intro entries
  induction entries with
  | nil => intro y; exact ⟨rfl, rfl⟩
  | cons e rest ih =>
    intro y
    cases e with
    | mk label slot =>
      have hsec := render_section_empty_counts decode y label slot
      have hrest := ih (render_section decode [] y label slot).1
      constructor
      · simp only [render_sections, List.countP_append, hsec.1, hrest.1,
          List.length_cons]
        omega
      · simp only [render_sections, List.countP_append, hsec.2, hrest.2]

/-- The header block contains no placement instruction. -/
theorem header_instrs_no_placement (ch d : String) :
    ((header_instrs ch d).countP isPlacement) = 0 ∧
    ((header_instrs ch d).countP isPlaceholderBox) = 0 ∧
    ((header_instrs ch d).countP isPlacedImage) = 0 :=
  ⟨rfl, rfl, rfl⟩

/-- The conclusion block contains no placement instruction. -/
theorem render_conclusion_no_placement (y : ℚ) :
    ((render_conclusion y).countP isPlacement) = 0 ∧
    ((render_conclusion y).countP isPlaceholderBox) = 0 ∧
    ((render_conclusion y).countP isPlacedImage) = 0 := by
  simp only [render_conclusion]
  refine ⟨?_, ?_, ?_⟩ <;> · simp only [List.countP_append]; split <;> rfl

/-- C6: with zero uploaded files the layout instruction stream contains
exactly one placeholder-box instruction per entry of the presentation
order, and zero placed-image instructions. -/
theorem C6_empty_mapping_all_placeholders (ch d : String)
    (decode : Bytes → Option PILImage) :
    ((generate_pdf ch d decode (map_uploaded_files [])).countP isPlaceholderBox) =
      PDF_IMAGE_ORDER.length ∧
    ((generate_pdf ch d decode (map_uploaded_files [])).countP isPlacedImage) = 0 := by
  have hmap : map_uploaded_files [] = [] := rfl
  rw [hmap]
  have hsec := render_sections_empty_counts decode PDF_IMAGE_ORDER header_end_y
  have hhdr := header_instrs_no_placement ch d
  have hcon :=
    render_conclusion_no_placement (render_sections decode [] header_end_y PDF_IMAGE_ORDER).1
  unfold generate_pdf
  constructor
  · simp only [List.countP_append, hsec.1, hhdr.2.1, hcon.2.1]
    omega
  · simp only [List.countP_append, hsec.2, hhdr.2.2, hcon.2.2]

/-- C2 counterexample: every entry of the presentation order carries exactly
one slot; exactly one entry refers to the captive-portal slot
`portal_login`; and in a run in which every slot (the portal slot included)
is mapped and decodable the stream holds exactly one placement per entry —
the captive-portal section does not render two slots. -/
theorem C2_counterexample :
    (PDF_IMAGE_ORDER.all (fun e => (entry_slots e).length == 1)) = true ∧
    (PDF_IMAGE_ORDER.filter (fun e => e.2 == "portal_login")) =
      [("PRINTS TELA LOGIN CAPTIVE PORTAL (ANTES/APÓS)", "portal_login")] ∧
    ((generate_pdf "123" "30/03/2025" (fun _ => some ⟨100, 100, "RGB"⟩)
        [("portal_login", [1])]).countP isPlacement) = 14 := by
  refine ⟨rfl, rfl, ?_⟩
  have hsec :=
    render_sections_placements (fun _ => some ⟨100, 100, "RGB"⟩)
      [("portal_login", [1])] PDF_IMAGE_ORDER header_end_y
  have hhdr := header_instrs_no_placement "123" "30/03/2025"
  have hcon :=
    render_conclusion_no_placement
      (render_sections (fun _ => some ⟨100, 100, "RGB"⟩) [("portal_login", [1])]
        header_end_y PDF_IMAGE_ORDER).1
  unfold generate_pdf
  simp only [List.countP_append, hsec, hhdr.1, hcon.1]
  decide

/-- C2 (amended): every Section Entry of the presentation order lists
exactly one slot; the captive-portal section is the single entry with the
single slot `portal_login`, and — like every entry — it contributes exactly
one image-or-placeholder placement to the instruction stream. -/
theorem C2_amended_one_slot_per_entry (ch d : String)
    (decode : Bytes → Option PILImage) (mapped : List (String × Bytes)) :
    ("PRINTS TELA LOGIN CAPTIVE PORTAL (ANTES/APÓS)", "portal_login") ∈ PDF_IMAGE_ORDER ∧
    (∀ e ∈ PDF_IMAGE_ORDER, (entry_slots e).length = 1) ∧
    ((generate_pdf ch d decode mapped).countP isPlacement) = PDF_IMAGE_ORDER.length := by
  refine ⟨by decide, fun e _ => rfl, ?_⟩
  have hsec := render_sections_placements decode mapped PDF_IMAGE_ORDER header_end_y
  have hhdr := header_instrs_no_placement ch d
  have hcon :=
    render_conclusion_no_placement
      (render_sections decode mapped header_end_y PDF_IMAGE_ORDER).1
  unfold generate_pdf
  simp only [List.countP_append, hsec, hhdr.1, hcon.1]
  omega

/-! ## Layout Engine: decode failures are local -/

/-- Two mappings whose slot accesses decode identically render each section
identically. -/
theorem render_section_congr (decode : Bytes → Option PILImage)
    (m m' : List (String × Bytes))
    (h : ∀ s, (dict_lookup m s).bind decode = (dict_lookup m' s).bind decode)
    (y : ℚ) (label slot : String) :
    render_section decode m y label slot = render_section decode m' y label slot := by
  unfold render_section
  rw [h slot]

/-- Two mappings whose slot accesses decode identically render the whole
section loop identically. -/
theorem render_sections_congr (decode : Bytes → Option PILImage)
    (m m' : List (String × Bytes))
    (h : ∀ s, (dict_lookup m s).bind decode = (dict_lookup m' s).bind decode) :
    ∀ (entries : List (String × String)) (y : ℚ),
      render_sections decode m y entries = render_sections decode m' y entries := by
  intro entries
  induction entries with
  | nil => intro y; rfl
  | cons e rest ih =>
    intro y
    cases e with
    | mk label slot =>
      simp only [render_sections, render_section_congr decode m m' h y label slot,
        ih (render_section decode m' y label slot).1]

/-- The conclusion block always draws its title. -/
theorem render_conclusion_has_title (y : ℚ) :
    ((render_conclusion y).any isConclusionTitle) = true := by
  unfold render_conclusion
  simp only [List.any_append, List.any_cons, List.any_nil, isConclusionTitle]
  split <;> simp

/-- C3: bytes that fail to decode render exactly as an absent slot — one
placeholder box in the section of that slot, with every other section untouched
— and the conclusion block is still emitted. -/
theorem C3_decode_failure_local (ch d : String)
    (decode : Bytes → Option PILImage) (m m' : List (String × Bytes))
    (slot : String) (b : Bytes)
    (hb : dict_lookup m slot = some b) (hdec : decode b = none)
    (habs : dict_lookup m' slot = none)
    (hrest : ∀ s, s ≠ slot → dict_lookup m' s = dict_lookup m s) :
    generate_pdf ch d decode m = generate_pdf ch d decode m' ∧
    ((generate_pdf ch d decode m).any isConclusionTitle) = true := by
  have hbind : ∀ s, (dict_lookup m s).bind decode = (dict_lookup m' s).bind decode := by
    intro s
    by_cases hs : s = slot
    · subst hs
      rw [hb, habs]
      simp [hdec]
    · rw [hrest s hs]
  constructor
  · unfold generate_pdf
    rw [render_sections_congr decode m m' hbind PDF_IMAGE_ORDER header_end_y]
  · unfold generate_pdf
    simp only [List.any_append, render_conclusion_has_title, Bool.or_true]

/-- Witness for C3: a mapping whose only slot holds undecodable bytes
renders exactly as the empty mapping. -/
theorem C3_witness :
    (generate_pdf "1" "d" (fun _ => none) [("rack", [1])] =
      generate_pdf "1" "d" (fun _ => none) []) ∧
    ((generate_pdf "1" "d" (fun _ => none) [("rack", [1])]).any isConclusionTitle) = true :=
  C3_decode_failure_local "1" "d" (fun _ => none) [("rack", [1])] [] "rack" [1]
    rfl rfl rfl
    (fun s hs => by simp [dict_lookup, List.lookup, beq_eq_false_iff_ne.mpr hs])

/-! ## The generation gate -/

/-- Reduction of the button handler once the validation result is known. -/
theorem gerar_pdf_action_eq (raw tipo d : String) (force : Bool)
    (decode : Bytes → Option PILImage) (files : List (String × Bytes))
    (om : Bool × List String)
    (hcr : check_requirements (map_uploaded_files files) tipo = some om) :
    gerar_pdf_action raw tipo d force decode files =
      (if extract_chamado raw = "" then
        Except.error "Por favor, digite o número do chamado (pelo menos um dígito) para nomear o arquivo."
      else if !om.1 && !force then
        Except.error "Relatório não gerado: faltam imagens obrigatórias. Se quiser prosseguir mesmo assim, marque Forçar geração."
      else
        Except.ok (generate_pdf (extract_chamado raw) d decode (map_uploaded_files files))) := by
  unfold gerar_pdf_action
  simp only [hcr]

/-- C4: PDF generation runs exactly when the extracted ticket number is
non-empty and validation passed or force is set; when either gate fails the
handler yields an error message and no instruction stream at all. -/
theorem C4_generation_gate (raw tipo d : String) (force : Bool)
    (decode : Bytes → Option PILImage) (files : List (String × Bytes))
    (htipo : tipo = "produtiva" ∨ tipo = "improdutiva") :
    ∃ ok missing,
      check_requirements (map_uploaded_files files) tipo = some (ok, missing) ∧
      ((gerar_pdf_action raw tipo d force decode files =
          Except.ok (generate_pdf (extract_chamado raw) d decode
            (map_uploaded_files files))) ↔
        (extract_chamado raw ≠ "" ∧ (ok = true ∨ force = true))) ∧
      (¬(extract_chamado raw ≠ "" ∧ (ok = true ∨ force = true)) →
        ∃ msg, gerar_pdf_action raw tipo d force decode files = Except.error msg) := by
  have hcr : ∃ om, check_requirements (map_uploaded_files files) tipo = some om := by
    rcases htipo with rfl | rfl
    · exact ⟨_, rfl⟩
    · exact ⟨_, rfl⟩
  obtain ⟨om, hom⟩ := hcr
  refine ⟨om.1, om.2, by simpa using hom, ?_, ?_⟩
  · rw [gerar_pdf_action_eq raw tipo d force decode files om hom]
    by_cases hch : extract_chamado raw = ""
    · rw [if_pos hch]
      constructor
      · intro h
        exact absurd h (by simp)
      · intro h
        exact absurd hch h.1
    · rw [if_neg hch]
      by_cases hok : om.1 = true
      · rw [if_neg (by simp [hok])]
        simp [hch, hok]
      · cases hforce : force with
        | true =>
          rw [if_neg (by simp [hforce])]
          simp [hch]
        | false =>
          rw [if_pos (by simp [Bool.of_not_eq_true hok, hforce])]
          constructor
          · intro h
            exact absurd h (by simp)
          · intro h
            rcases h.2 with h2 | h2
            · exact absurd h2 hok
            · exact absurd h2 (by simp [hforce])
  · intro hfail
    rw [gerar_pdf_action_eq raw tipo d force decode files om hom]
    by_cases hch : extract_chamado raw = ""
    · rw [if_pos hch]
      exact ⟨_, rfl⟩
    · have hok : om.1 = false := by
        rcases Decidable.not_and_iff_or_not.1 hfail with h | h
        · exact absurd hch (by simpa using h)
        · rcases not_or.1 h with ⟨h1, h2⟩
          exact Bool.of_not_eq_true h1
      have hforce : force = false := by
        rcases Decidable.not_and_iff_or_not.1 hfail with h | h
        · exact absurd hch (by simpa using h)
        · rcases not_or.1 h with ⟨h1, h2⟩
          exact Bool.of_not_eq_true h2
      rw [if_neg hch, if_pos (by simp [hok, hforce])]
      exact ⟨_, rfl⟩

/-- Witness for C4: no digits in the ticket text blocks generation. -/
theorem C4_witness :
    ∃ ok missing,
      check_requirements (map_uploaded_files []) "produtiva" = some (ok, missing) ∧
      ((gerar_pdf_action "abc" "produtiva" "d" false (fun _ => none) [] =
          Except.ok (generate_pdf (extract_chamado "abc") "d" (fun _ => none)
            (map_uploaded_files []))) ↔
        (extract_chamado "abc" ≠ "" ∧ (ok = true ∨ false = true))) ∧
      (¬(extract_chamado "abc" ≠ "" ∧ (ok = true ∨ false = true)) →
        ∃ msg, gerar_pdf_action "abc" "produtiva" "d" false (fun _ => none) [] =
          Except.error msg) :=
  C4_generation_gate "abc" "produtiva" "d" false (fun _ => none) [] (Or.inl rfl)

/-! ## Aspect-fit scale factor -/

/-- C7: for a decodable image with positive pixel dimensions placed into a
positive box, the uniform scale factor is
`min(box_w / img_w, box_h / img_h, 1.0)`; it is strictly below `1` when the
image exceeds the box in both dimensions, and exactly `1` (no upscaling)
when the image is smaller than the box in both dimensions. -/
theorem C7_image_scale_aspect_fit (img_w img_h : ℕ) (max_w max_h : ℚ)
    (hw : 0 < img_w) (hh : 0 < img_h) (hmw : 0 < max_w) (hmh : 0 < max_h) :
    image_scale img_w img_h max_w max_h =
      min (min (max_w / img_w) (max_h / img_h)) 1 ∧
    ((max_w < img_w ∧ max_h < img_h) →
      image_scale img_w img_h max_w max_h < 1) ∧
    (((img_w : ℚ) < max_w ∧ (img_h : ℚ) < max_h) →
      image_scale img_w img_h max_w max_h = 1) := by
  have hw' : (0 : ℚ) < img_w := by exact_mod_cast hw
  have hh' : (0 : ℚ) < img_h := by exact_mod_cast hh
  refine ⟨rfl, ?_, ?_⟩
  · rintro ⟨h1, h2⟩
    have ha : max_w / img_w < 1 := (div_lt_one hw').2 h1
    exact min_lt_iff.2 (Or.inl (min_lt_iff.2 (Or.inl ha)))
  · rintro ⟨h1, h2⟩
    have ha : (1 : ℚ) ≤ max_w / img_w := (one_le_div hw').2 (le_of_lt h1)
    have hb : (1 : ℚ) ≤ max_h / img_h := (one_le_div hh').2 (le_of_lt h2)
    exact min_eq_right (le_min ha hb)

/-- Witness for C7 at a 1000x800 image in a 500x200 box. -/
theorem C7_witness :
    image_scale 1000 800 500 200 =
      min (min ((500 : ℚ) / ((1000 : ℕ) : ℚ)) ((200 : ℚ) / ((800 : ℕ) : ℚ))) 1 ∧
    (((500 : ℚ) < ((1000 : ℕ) : ℚ) ∧ (200 : ℚ) < ((800 : ℕ) : ℚ)) →
      image_scale 1000 800 500 200 < 1) ∧
    ((((1000 : ℕ) : ℚ) < 500 ∧ ((800 : ℕ) : ℚ) < 200) →
      image_scale 1000 800 500 200 = 1) :=
  C7_image_scale_aspect_fit 1000 800 500 200 (by norm_num) (by norm_num)
    (by norm_num) (by norm_num)
